import Mathlib

/-!
Verification of the file-shover static file server.

This file is a shallow embedding, in Lean 4, of the core of the
file-shover repository (a small HTTP/1.1 static file server written in
Rust), together with theorems settling the frozen claims about it.

The embedding follows the Rust sources:
  * src/src/files.rs   — FileTree and FileTree::get_reader (path sandboxing),
  * src/src/message.rs — HttpMethod, Request::from_bytes, HttpStatus,
                          Response and its builder, Response::write,
  * src/src/data.rs    — get_mime_type,
  * src/src/main.rs    — handle_client (the per-connection handler).

Modelling conventions:
  * Rust strings and byte streams are modelled as `List Char` (every input
    considered is ASCII, so bytes and chars coincide); whitespace predicates
    are restricted to the ASCII whitespace characters the program can meet
    on its wire inputs.
  * The filesystem is an oracle `Fs : Str → Except ErrorKind Str` mapping
    the path handed to File::open to either the file contents or an
    io::ErrorKind; the spec's PathError taxonomy maps onto io::ErrorKind
    as the code uses it: InvalidPath = ErrorKind::InvalidInput,
    NotFound = ErrorKind::NotFound.
  * An inbound stream is the finite sequence of bytes delivered before
    end-of-stream; transport read failures are external faults and are not
    part of the stream model (Rust's read_line / lines treat end-of-stream
    as ordinary end of data, not as an error).
  * Fallible Rust functions returning Result are modelled with `Except`.

A few items used by src/src/main.rs are missing from the sources under
src/ (they are only imported or called there): the constants
DEFAULT_BAD_REQUEST_BODY, DEFAULT_NOT_FOUND_BODY and
DEFAULT_INTERNAL_ERROR_BODY, the Response::content_length builder method,
and the files::FileData struct. Those are modelled from the spec and are
marked as such in their doc comments.
-/

namespace FileShover

/-- Strings and byte streams are modelled as lists of characters. -/
abbrev Str := List Char

/-- Boolean test that the first list is a leading segment of the second
(Rust str::starts_with at character level). -/
def leadsList : Str → Str → Bool
  | [], _ => true
  | _ :: _, [] => false
  | a :: as, b :: bs => if a = b then leadsList as bs else false

/-- Boolean substring test (Rust str::contains for a literal needle):
does `needle` occur contiguously anywhere in the haystack? -/
def containsSeq (needle : Str) : Str → Bool
  | [] => needle.isEmpty
  | c :: rest => leadsList needle (c :: rest) || containsSeq needle rest

/-! ### files.rs — FileTree and get_reader -/

/-- The io::ErrorKind values the program distinguishes: get_reader produces
InvalidInput (the spec's InvalidPath) itself, File::open produces NotFound
or any other kind, and handle_client branches on NotFound. -/
inductive ErrorKind
  | invalidInput
  | notFound
  | permissionDenied
  | otherError
  deriving DecidableEq

/-- Abstract filesystem oracle: File::open on a given path either yields
the file's contents (the opened reader) or fails with an io::ErrorKind. -/
def Fs : Type := Str → Except ErrorKind Str

/-- A file tree rooted at a directory path (struct FileTree in files.rs). -/
structure FileTree where
  root : Str

/-- Rust `path_str.strip_prefix('/').unwrap_or(path_str)`: remove a single
leading slash if present, otherwise return the string unchanged. -/
def stripLeadSlash (p : Str) : Str :=
  match p with
  | '/' :: rest => rest
  | _ => p

/-- Rust `PathBuf::join` on Unix: joining an absolute path replaces the
base entirely; otherwise the argument is appended, inserting a separator
unless the base is empty or already ends in one. -/
def pathJoin (root p : Str) : Str :=
  if leadsList ['/'] p then p
  else
    match root.getLast? with
    | none => p
    | some c => if c = '/' then root ++ p else root ++ '/' :: p

/-- FileTree::get_reader (src/src/files.rs lines 79-102): strip a single
leading '/', reject "." and "..", reject the empty path, reject any path
containing ".." as a substring, then File::open the join of the root and
the cleaned path and wrap the opened file. The invalid-UTF-8 branch of the
source cannot arise here because paths are already char lists. -/
def get_reader (fs : Fs) (t : FileTree) (path : Str) : Except ErrorKind Str :=
  if stripLeadSlash path = ['.'] ∨ stripLeadSlash path = ['.', '.'] then
    Except.error ErrorKind.invalidInput
  else if stripLeadSlash path = [] then
    Except.error ErrorKind.invalidInput
  else if containsSeq ['.', '.'] (stripLeadSlash path) then
    Except.error ErrorKind.invalidInput
  else
    match fs (pathJoin t.root (stripLeadSlash path)) with
    | Except.error e => Except.error e
    | Except.ok contents => Except.ok contents

/-- The exact path argument get_reader hands to File::open, or `none` when
the traversal guard rejects the request before any filesystem access. -/
def resolvedPath (t : FileTree) (path : Str) : Option Str :=
  if stripLeadSlash path = ['.'] ∨ stripLeadSlash path = ['.', '.'] then none
  else if stripLeadSlash path = [] then none
  else if containsSeq ['.', '.'] (stripLeadSlash path) then none
  else some (pathJoin t.root (stripLeadSlash path))

/-- Whether a path lies strictly beneath the given root directory. -/
def isUnderRoot (root p : Str) : Bool :=
  leadsList (root ++ ['/']) p

/-- get_reader factors through resolvedPath: it performs exactly one
File::open, on the resolved path, and errors without filesystem access
when the guard rejects. -/
theorem get_reader_eq (fs : Fs) (t : FileTree) (p : Str) :
    get_reader fs t p =
      match resolvedPath t p with
      | none => Except.error ErrorKind.invalidInput
      | some jp => fs jp := by
  unfold get_reader resolvedPath
  split_ifs <;> try rfl
  cases h : fs (pathJoin t.root (stripLeadSlash p)) <;> simp [h]

/-- Demonstration root directory for concrete instances. -/
def rootDemo : Str := ['/', 's', 'r', 'v', '/', 'w', 'w', 'w']

/-- The escaping request path: a double leading slash. -/
def travPath : Str := ['/', '/', 'e', 't', 'c', '/', 'p', 'a', 's', 's', 'w', 'd']

/-- The absolute path the escape resolves to. -/
def escapedPath : Str := ['/', 'e', 't', 'c', '/', 'p', 'a', 's', 's', 'w', 'd']

/-- Demonstration filesystem on which every open fails with NotFound. -/
def fsDemo : Fs := fun _ => Except.error ErrorKind.notFound

/-- Claim C1 (code_bug): get_reader is claimed to open only files beneath
the configured root, but the request path "//etc/passwd" defeats the
guard: only one leading '/' is stripped, the remaining "/etc/passwd"
contains no "..", and PathBuf::join replaces the root entirely when handed
an absolute path — so File::open receives /etc/passwd, outside the root
/srv/www. The code contradicts its own documentation ("ensuring all file
access is relative to the root directory"). -/
theorem c1_code_bug :
    resolvedPath ⟨rootDemo⟩ travPath = some escapedPath ∧
    isUnderRoot rootDemo escapedPath = false ∧
    ∀ fs : Fs, get_reader fs ⟨rootDemo⟩ travPath = fs escapedPath := by
  refine ⟨by decide, by decide, ?_⟩
  intro fs
  rw [get_reader_eq]
  have h : resolvedPath ⟨rootDemo⟩ travPath = some escapedPath := by decide
  rw [h]

/-- Claim C2: every request path whose cleaned form (after stripping a
single leading '/') is empty, ".", "..", or contains ".." as a substring
is rejected with the InvalidPath error (io ErrorKind InvalidInput), for
every filesystem alike, and no path at all is handed to File::open. -/
theorem c2_confirmed (t : FileTree) (p : Str) (fs : Fs)
    (h : stripLeadSlash p = [] ∨ stripLeadSlash p = ['.'] ∨ stripLeadSlash p = ['.', '.'] ∨
      containsSeq ['.', '.'] (stripLeadSlash p) = true) :
    get_reader fs t p = Except.error ErrorKind.invalidInput ∧ resolvedPath t p = none := by
  have hr : resolvedPath t p = none := by
    unfold resolvedPath
    split_ifs with h1 h2 h3
    · rfl
    · rfl
    · rfl
    · exfalso
      rcases h with h | h | h | h
      · exact h2 h
      · exact h1 (Or.inl h)
      · exact h1 (Or.inr h)
      · exact h3 h
  refine ⟨?_, hr⟩
  rw [get_reader_eq, hr]

/-- Concrete traversal attempt for the C2 witness. -/
def travPath2 : Str := ['/', '.', '.', '/', 's', 'e', 'c', 'r', 'e', 't']

/-- Witness for C2 at the concrete request path "/../secret". -/
theorem c2_witness :
    (stripLeadSlash travPath2 = [] ∨ stripLeadSlash travPath2 = ['.'] ∨
      stripLeadSlash travPath2 = ['.', '.'] ∨
      containsSeq ['.', '.'] (stripLeadSlash travPath2) = true) ∧
    (get_reader fsDemo ⟨rootDemo⟩ travPath2 = Except.error ErrorKind.invalidInput ∧
      resolvedPath ⟨rootDemo⟩ travPath2 = none) :=
  ⟨by decide, c2_confirmed ⟨rootDemo⟩ travPath2 fsDemo (by decide)⟩

/-! ### message.rs — request decoding -/

/-- Errors of request parsing (enum RequestError in message.rs). The Io
payload (an io::Error) is irrelevant to the claims and is dropped. -/
inductive RequestError
  | ioError
  | invalidFormat
  | missingHeader (h : Str)
  deriving DecidableEq

/-- HTTP methods the server understands (enum HttpMethod). -/
inductive HttpMethod
  | GET
  | HEAD
  | OPTIONS
  deriving DecidableEq

/-- HttpMethod::from_str (message.rs lines 101-108): a case-sensitive match
against the three supported verbs; anything else is InvalidFormat. -/
def HttpMethod.fromStr (s : Str) : Except RequestError HttpMethod :=
  if s = ['G', 'E', 'T'] then Except.ok HttpMethod.GET
  else if s = ['H', 'E', 'A', 'D'] then Except.ok HttpMethod.HEAD
  else if s = ['O', 'P', 'T', 'I', 'O', 'N', 'S'] then Except.ok HttpMethod.OPTIONS
  else Except.error RequestError.invalidFormat

/-- A parsed HTTP request (struct Request in message.rs). Headers are a
mapping modelled as an association list with unique keys. -/
structure Request where
  method : HttpMethod
  path : Str
  http_version : Str
  headers : List (Str × Str)
  deriving DecidableEq

/-- BufRead::read_line: consume up to and including the first '\n'; at
end-of-stream return whatever remains (end-of-stream is not an error).
Returns the line read (newline included) and the unconsumed rest. -/
def readLine : Str → Str × Str
  | [] => ([], [])
  | c :: rest =>
    if c = '\n' then ([c], rest)
    else
      let lr := readLine rest
      (c :: lr.1, lr.2)

/-- char::is_ascii_whitespace: space, tab, newline, carriage return, form
feed. (str::trim uses Unicode whitespace, a superset; the wire inputs the
program parses contain only ASCII whitespace.) -/
def isAsciiWs (c : Char) : Bool :=
  decide (c = ' ' ∨ c = '\t' ∨ c = '\n' ∨ c = '\r' ∨ c = '\x0C')

/-- Drop leading whitespace characters. -/
def dropLeadWs : Str → Str
  | [] => []
  | c :: rest => if isAsciiWs c then dropLeadWs rest else c :: rest

/-- str::trim: remove leading and trailing whitespace. -/
def rustTrim (s : Str) : Str :=
  (dropLeadWs (dropLeadWs s).reverse).reverse

/-- Accumulator pass of split_ascii_whitespace; `cur` holds the current
token reversed. -/
def splitWsAux (cur : Str) : Str → List Str
  | [] => if cur = [] then [] else [cur.reverse]
  | c :: rest =>
    if isAsciiWs c then
      if cur = [] then splitWsAux [] rest
      else cur.reverse :: splitWsAux [] rest
    else splitWsAux (c :: cur) rest

/-- str::split_ascii_whitespace: split into maximal non-whitespace runs. -/
def splitAsciiWs (s : Str) : List Str := splitWsAux [] s

/-- Final newline trim of BufRead::lines: the reversed accumulated line has
its leading '\r' (i.e. a trailing "\r" before the '\n') removed. -/
def stripCrOfRev (cur : Str) : Str :=
  match cur with
  | '\r' :: rest => rest.reverse
  | _ => cur.reverse

/-- Accumulator pass of BufRead::lines; `cur` holds the current line
reversed. A line ended by '\n' has "\n" or "\r\n" stripped; a final
partial line at end-of-stream is yielded as-is. -/
def splitLinesAux (cur : Str) : Str → List Str
  | [] => if cur = [] then [] else [cur.reverse]
  | c :: rest =>
    if c = '\n' then stripCrOfRev cur :: splitLinesAux [] rest
    else splitLinesAux (c :: cur) rest

/-- BufRead::lines over the modelled stream: every line, terminators
stripped; end-of-stream simply ends the iterator (no error). -/
def linesRust (s : Str) : List Str := splitLinesAux [] s

/-- Iterator::take_while on non-empty lines: keep lines strictly before
the first empty one (the header/body separator). -/
def takeNonEmptyLines : List Str → List Str
  | [] => []
  | l :: rest => if l = [] then [] else l :: takeNonEmptyLines rest

/-- str::splitn(2, ": "): split at the first occurrence of the two-char
separator; `none` when the separator does not occur. -/
def splitOnceColonSp : Str → Option (Str × Str)
  | [] => none
  | ':' :: ' ' :: rest => some ([], rest)
  | c :: rest =>
    match splitOnceColonSp rest with
    | some kv => some (c :: kv.1, kv.2)
    | none => none

/-- One header line of from_bytes: key and value around the first ": ";
a line that does not split this way is InvalidFormat. -/
def parseHeaderLine (l : Str) : Except RequestError (Str × Str) :=
  match splitOnceColonSp l with
  | some kv => Except.ok kv
  | none => Except.error RequestError.invalidFormat

/-- HashMap::insert overwrite semantics on the association-list model:
any previous binding of the key is removed and the new binding appended,
so the last insertion of a key wins. -/
def insertHeader (hs : List (Str × Str)) (k v : Str) : List (Str × Str) :=
  match hs with
  | [] => [(k, v)]
  | kv :: rest => if kv.1 = k then insertHeader rest k v else kv :: insertHeader rest k v

/-- Collecting the header lines into the map, as the Result collect in
from_bytes does: stop at the first malformed line, insert in order. -/
def collectHeaders (acc : List (Str × Str)) : List Str → Except RequestError (List (Str × Str))
  | [] => Except.ok acc
  | l :: rest =>
    match parseHeaderLine l with
    | Except.error e => Except.error e
    | Except.ok kv => collectHeaders (insertHeader acc kv.1 kv.2) rest

/-- The whitespace tokens of the request line: from_bytes reads one line
and splits its trimmed form on ASCII whitespace. -/
def requestToks (input : Str) : List Str :=
  splitAsciiWs (rustTrim (readLine input).1)

/-- The header section of the stream: the lines after the request line,
up to the first empty line (or end-of-stream). -/
def headerPart (input : Str) : List Str :=
  takeNonEmptyLines (linesRust (readLine input).2)

/-- Request::from_bytes (message.rs lines 414-449): read the request line,
take the first three whitespace tokens as method, path and version
(missing tokens are InvalidFormat; the method must parse; surplus tokens
are ignored), then collect the header lines until the first empty line. -/
def Request.from_bytes (input : Str) : Except RequestError Request :=
  match requestToks input with
  | [] => Except.error RequestError.invalidFormat
  | mTok :: rest1 =>
    match HttpMethod.fromStr mTok with
    | Except.error e => Except.error e
    | Except.ok method =>
      match rest1 with
      | [] => Except.error RequestError.invalidFormat
      | pathTok :: rest2 =>
        match rest2 with
        | [] => Except.error RequestError.invalidFormat
        | verTok :: _ =>
          match collectHeaders [] (headerPart input) with
          | Except.error e => Except.error e
          | Except.ok hs => Except.ok ⟨method, pathTok, verTok, hs⟩

/-- The only error from_str ever produces is InvalidFormat. -/
theorem fromStr_error_eq (s : Str) (e : RequestError)
    (h : HttpMethod.fromStr s = Except.error e) : e = RequestError.invalidFormat := by
  unfold HttpMethod.fromStr at h
  split_ifs at h
  simp_all

/-- Header collection either succeeds or fails with InvalidFormat. -/
theorem collectHeaders_cases (ls : List Str) :
    ∀ acc, (∃ hs, collectHeaders acc ls = Except.ok hs) ∨
      collectHeaders acc ls = Except.error RequestError.invalidFormat := by
  induction ls with
  | nil => intro acc; exact Or.inl ⟨acc, rfl⟩
  | cons l rest ih =>
    intro acc
    unfold collectHeaders
    cases hp : parseHeaderLine l with
    | error e =>
      have he : e = RequestError.invalidFormat := by
        unfold parseHeaderLine at hp
        cases hsp : splitOnceColonSp l <;> (rw [hsp] at hp; simp_all)
      subst he
      exact Or.inr rfl
    | ok kv => exact ih (insertHeader acc kv.1 kv.2)

/-! ### Claims about request decoding: C3, C4, C10 -/

/-- Decidable equality for Except results, used to evaluate the decoder on
concrete inputs. -/
instance {ε α : Type} [DecidableEq ε] [DecidableEq α] : DecidableEq (Except ε α) := fun x y =>
  match x, y with
  | Except.error a, Except.error b =>
    if h : a = b then Decidable.isTrue (by rw [h])
    else Decidable.isFalse (by intro hc; injection hc; exact h (by assumption))
  | Except.error _, Except.ok _ => Decidable.isFalse (by intro hc; exact Except.noConfusion hc)
  | Except.ok _, Except.error _ => Decidable.isFalse (by intro hc; exact Except.noConfusion hc)
  | Except.ok a, Except.ok b =>
    if h : a = b then Decidable.isTrue (by rw [h])
    else Decidable.isFalse (by intro hc; injection hc; exact h (by assumption))

/-! ### message.rs — response building and encoding -/

/-- HTTP status codes the server supports (enum HttpStatus). -/
inductive HttpStatus
  | Ok
  | NotModified
  | BadRequest
  | Forbidden
  | NotFound
  | MethodNotAllowed
  | InternalServerError
  deriving DecidableEq

/-- HttpStatus::as_str: numeric code and reason phrase. -/
def HttpStatus.as_str : HttpStatus → Str
  | HttpStatus.Ok => ['2', '0', '0', ' ', 'O', 'K']
  | HttpStatus.NotModified =>
    ['3', '0', '4', ' ', 'N', 'o', 't', ' ', 'M', 'o', 'd', 'i', 'f', 'i', 'e', 'd']
  | HttpStatus.BadRequest =>
    ['4', '0', '0', ' ', 'B', 'a', 'd', ' ', 'R', 'e', 'q', 'u', 'e', 's', 't']
  | HttpStatus.Forbidden =>
    ['4', '0', '3', ' ', 'F', 'o', 'r', 'b', 'i', 'd', 'd', 'e', 'n']
  | HttpStatus.NotFound =>
    ['4', '0', '4', ' ', 'N', 'o', 't', ' ', 'F', 'o', 'u', 'n', 'd']
  | HttpStatus.MethodNotAllowed =>
    ['4', '0', '5', ' ', 'M', 'e', 't', 'h', 'o', 'd', ' ', 'N', 'o', 't', ' ',
      'A', 'l', 'l', 'o', 'w', 'e', 'd']
  | HttpStatus.InternalServerError =>
    ['5', '0', '0', ' ', 'I', 'n', 't', 'e', 'r', 'n', 'a', 'l', ' ',
      'S', 'e', 'r', 'v', 'e', 'r', ' ', 'E', 'r', 'r', 'o', 'r']

/-- An HTTP response under construction (struct Response). The body is an
optional byte buffer; the streaming reader of main.rs is represented by
the bytes it would deliver. -/
structure Response where
  status : HttpStatus
  headers : List (Str × Str)
  body : Option Str
  deriving DecidableEq

/-- Header name "Server". -/
def serverKey : Str := ['S', 'e', 'r', 'v', 'e', 'r']

/-- Header value "file-shover/1.0". -/
def serverVal : Str := ['f', 'i', 'l', 'e', '-', 's', 'h', 'o', 'v', 'e', 'r', '/', '1', '.', '0']

/-- Header name "Connection". -/
def connectionKey : Str := ['C', 'o', 'n', 'n', 'e', 'c', 't', 'i', 'o', 'n']

/-- Header value "close". -/
def closeVal : Str := ['c', 'l', 'o', 's', 'e']

/-- Header name "Content-Type". -/
def contentTypeKey : Str := ['C', 'o', 'n', 't', 'e', 'n', 't', '-', 'T', 'y', 'p', 'e']

/-- Header name "Content-Length". -/
def contentLengthKey : Str :=
  ['C', 'o', 'n', 't', 'e', 'n', 't', '-', 'L', 'e', 'n', 'g', 't', 'h']

/-- Response::header: insert a header, overwriting any previous value. -/
def Response.withHeader (r : Response) (k v : Str) : Response :=
  { r with headers := insertHeader r.headers k v }

/-- Response::server: set the Server header. -/
def Response.server (r : Response) (name : Str) : Response :=
  r.withHeader serverKey name

/-- Response::default (message.rs lines 231-240): status 200, no body, then
the Server and Connection defaults inserted through the builder. -/
def Response.default : Response :=
  ((Response.mk HttpStatus.Ok [] none).server serverVal).withHeader connectionKey closeVal

/-- Response::new: identical to default. -/
def Response.new : Response := Response.default

/-- Response::status (builder): set the status code. -/
def Response.withStatus (r : Response) (s : HttpStatus) : Response :=
  { r with status := s }

/-- Response::body (builder): set the body buffer. -/
def Response.withBody (r : Response) (b : Str) : Response :=
  { r with body := some b }

/-- Response::content_type: set the Content-Type header. -/
def Response.content_type (r : Response) (m : Str) : Response :=
  r.withHeader contentTypeKey m

/-- Modelled from the spec: Response::content_length is called by
src/src/main.rs but missing from src/src/message.rs; per the spec it sets
the optional Content-Length header, here to the decimal rendering of the
byte count. -/
def Response.content_length (r : Response) (n : Nat) : Response :=
  r.withHeader contentLengthKey (Nat.toDigits 10 n)

/-- One encoded header line as writeln! emits it: name, ": ", value, LF. -/
def headerLine (kv : Str × Str) : Str :=
  kv.1 ++ [':', ' '] ++ kv.2 ++ ['\n']

/-- Concatenation of a list of chunks. -/
def joinAll : List Str → Str
  | [] => []
  | l :: rest => l ++ joinAll rest

/-- Response::write (message.rs lines 362-380): the status line, the header
lines and the separating empty line are each emitted with writeln!, whose
line terminator is a single '\n' (LF); the body bytes, if any, follow
verbatim. The function yields the bytes put on the wire. -/
def Response.write (r : Response) : Str :=
  (['H', 'T', 'T', 'P', '/', '1', '.', '1', ' '] ++ r.status.as_str ++ ['\n'])
    ++ joinAll (r.headers.map headerLine)
    ++ ['\n']
    ++ match r.body with
       | some b => b
       | none => []

/-- Follows the spec's words (section 4.3 output grammar): status line,
header lines and blank line each terminated by CRLF, body verbatim.
Stated for comparison against Response.write. -/
def writeSpecCRLF (r : Response) : Str :=
  (['H', 'T', 'T', 'P', '/', '1', '.', '1', ' '] ++ r.status.as_str ++ ['\r', '\n'])
    ++ r.headers.foldr (fun kv acc => kv.1 ++ [':', ' '] ++ kv.2 ++ ['\r', '\n'] ++ acc) []
    ++ ['\r', '\n']
    ++ r.body.getD []

/-- The spec's output grammar with the line terminator amended to LF,
matching what writeln! actually emits. -/
def writeSpecLF (r : Response) : Str :=
  (['H', 'T', 'T', 'P', '/', '1', '.', '1', ' '] ++ r.status.as_str ++ ['\n'])
    ++ r.headers.foldr (fun kv acc => kv.1 ++ [':', ' '] ++ kv.2 ++ ['\n'] ++ acc) []
    ++ ['\n']
    ++ r.body.getD []

/-- Lookup in the header mapping (HashMap::get on the model). -/
def lookupHeader : List (Str × Str) → Str → Option Str
  | [], _ => none
  | kv :: rest, k => if kv.1 = k then some kv.2 else lookupHeader rest k

/-- Mapping then joining header lines coincides with the folded spec form. -/
theorem joinAll_map_headerLine (l : List (Str × Str)) :
    joinAll (l.map headerLine) =
      l.foldr (fun kv acc => kv.1 ++ [':', ' '] ++ kv.2 ++ ['\n'] ++ acc) [] := by
  induction l with
  | nil => rfl
  | cons kv rest ih => simp [joinAll, headerLine, ih, List.append_assoc]

/-- Inserting a header makes it the value found for its key. -/
theorem lookup_insert_self (hs : List (Str × Str)) (k v : Str) :
    lookupHeader (insertHeader hs k v) k = some v := by
  induction hs with
  | nil => simp [insertHeader, lookupHeader]
  | cons kv rest ih =>
    by_cases h : kv.1 = k
    · simpa [insertHeader, h] using ih
    · simpa [insertHeader, h, lookupHeader] using ih

/-- Inserting a header leaves every other key unchanged. -/
theorem lookup_insert_other (hs : List (Str × Str)) (k v k2 : Str) (h : k2 ≠ k) :
    lookupHeader (insertHeader hs k v) k2 = lookupHeader hs k2 := by
  have hk2k : ¬k = k2 := fun hc => h hc.symm
  induction hs with
  | nil => simp [insertHeader, lookupHeader, hk2k]
  | cons kv rest ih =>
    by_cases hk : kv.1 = k
    · simp [insertHeader, hk, lookupHeader, hk2k, ih]
    · by_cases hkv : kv.1 = k2
      · simp [insertHeader, hk, lookupHeader, hkv, h]
      · simp [insertHeader, hk, lookupHeader, hkv, ih]

/-! ### data.rs — MIME lookup -/

/-- Mime string "text/html". -/
def textHtml : Str := ['t', 'e', 'x', 't', '/', 'h', 't', 'm', 'l']

/-- Mime string "text/css". -/
def textCss : Str := ['t', 'e', 'x', 't', '/', 'c', 's', 's']

/-- Mime string "text/javascript". -/
def textJs : Str := ['t', 'e', 'x', 't', '/', 'j', 'a', 'v', 'a', 's', 'c', 'r', 'i', 'p', 't']

/-- Mime string "image/jpeg". -/
def imageJpeg : Str := ['i', 'm', 'a', 'g', 'e', '/', 'j', 'p', 'e', 'g']

/-- Mime string "text/plain". -/
def textPlain : Str := ['t', 'e', 'x', 't', '/', 'p', 'l', 'a', 'i', 'n']

/-- The final path component (Rust Path::file_name, roughly): everything
after the last '/'. -/
def lastComp (p : Str) : Str :=
  p.foldl (fun acc ch => if ch = '/' then [] else acc ++ [ch]) []

/-- Scan of the reversed file name for Path::extension: accumulate until
the first '.'; a name with no '.', or whose only '.' starts it (a hidden
file), has no extension. -/
def extRevAux (acc : Str) : Str → Option Str
  | [] => none
  | c :: rest =>
    if c = '.' then (if rest = [] then none else some acc)
    else extRevAux (c :: acc) rest

/-- Path::extension of the request path. -/
def extOf (p : Str) : Option Str := extRevAux [] (lastComp p).reverse

/-- get_mime_type (src/src/data.rs lines 33-42): extension lookup with
text/plain as the default. The MimeType enum is flattened to the string
as_str yields, which is how main.rs consumes it. -/
def get_mime_type (p : Str) : Str :=
  match extOf p with
  | some e =>
    if e = ['h', 't', 'm', 'l'] then textHtml
    else if e = ['c', 's', 's'] then textCss
    else if e = ['j', 's'] then textJs
    else if e = ['j', 'p', 'g'] then imageJpeg
    else textPlain
  | none => textPlain

/-! ### main.rs — the per-connection handler -/

/-- Modelled from the spec: DEFAULT_BAD_REQUEST_BODY is imported from the
message module by src/src/main.rs but missing from src/src/message.rs;
per the spec it is a minimal HTML body describing the status. -/
def DEFAULT_BAD_REQUEST_BODY : Str :=
  ['<', 'h', '1', '>', '4', '0', '0', ' ', 'B', 'a', 'd', ' ',
    'R', 'e', 'q', 'u', 'e', 's', 't', '<', '/', 'h', '1', '>']

/-- Modelled from the spec: DEFAULT_NOT_FOUND_BODY, a minimal HTML body
describing the 404 status (missing from src/src/message.rs). -/
def DEFAULT_NOT_FOUND_BODY : Str :=
  ['<', 'h', '1', '>', '4', '0', '4', ' ', 'N', 'o', 't', ' ',
    'F', 'o', 'u', 'n', 'd', '<', '/', 'h', '1', '>']

/-- Modelled from the spec: DEFAULT_INTERNAL_ERROR_BODY, a minimal HTML
body describing the 500 status (missing from src/src/message.rs). -/
def DEFAULT_INTERNAL_ERROR_BODY : Str :=
  ['<', 'h', '1', '>', '5', '0', '0', ' ', 'I', 'n', 't', 'e', 'r', 'n', 'a', 'l', ' ',
    'S', 'e', 'r', 'v', 'e', 'r', ' ', 'E', 'r', 'r', 'o', 'r', '<', '/', 'h', '1', '>']

/-- The 400 response handle_client builds on a decode failure (main.rs
lines 44-48). Note the source passes DEFAULT_NOT_FOUND_BODY's length to
content_length while the body is DEFAULT_BAD_REQUEST_BODY; the model keeps
that faithfully. -/
def badRequestResponse : Response :=
  ((((Response.new).withStatus HttpStatus.BadRequest).content_type
      textHtml).content_length DEFAULT_NOT_FOUND_BODY.length).withBody DEFAULT_BAD_REQUEST_BODY

/-- The 404 response handle_client builds when the resolver reports
NotFound (main.rs lines 67-71). -/
def notFoundResponse : Response :=
  ((((Response.new).withStatus HttpStatus.NotFound).content_type
      textHtml).content_length DEFAULT_NOT_FOUND_BODY.length).withBody DEFAULT_NOT_FOUND_BODY

/-- The 500 response handle_client builds on any other resolution error
(main.rs lines 74-80). -/
def internalErrorResponse : Response :=
  ((((Response.new).withStatus HttpStatus.InternalServerError).content_type
      textHtml).content_length
      DEFAULT_INTERNAL_ERROR_BODY.length).withBody DEFAULT_INTERNAL_ERROR_BODY

/-- The externally visible actions of one handle_client run: one write
attempt of a response onto the socket, and one bidirectional shutdown. -/
inductive Action
  | writeResp (r : Response)
  | shutdown
  deriving DecidableEq

/-- The response handle_client builds for a successfully parsed request
(main.rs lines 63-95): resolve through the FileTree, mapping NotFound to
404, any other error to 500, and success to a 200 carrying the file
contents, its length as Content-Length and the extension-derived
Content-Type. The FileData metadata length equals the content length
(modelled from the spec: FileData itself is missing from src/src/files.rs,
which returns the bare reader). -/
def responseFor (fs : Fs) (tree : FileTree) (req : Request) : Response :=
  match get_reader fs tree req.path with
  | Except.error e =>
    if e = ErrorKind.notFound then notFoundResponse else internalErrorResponse
  | Except.ok contents =>
    ((((Response.new).withStatus HttpStatus.Ok).content_type
        (get_mime_type req.path)).content_length contents.length).withBody contents

/-- handle_client (src/src/main.rs lines 38-104) as the sequence of actions
it performs on the socket: parse the request; on failure write the 400
response and shut the stream down; on success resolve and write the
resulting response, then shut the stream down. Write and shutdown failures
are logged and ignored, so the attempts happen unconditionally. -/
def handle_client (fs : Fs) (tree : FileTree) (input : Str) : List Action :=
  match Request.from_bytes input with
  | Except.error _ => [Action.writeResp badRequestResponse, Action.shutdown]
  | Except.ok req => [Action.writeResp (responseFor fs tree req), Action.shutdown]

/-! ### The remaining claims -/

/-- Claim C3: a request line with fewer than three whitespace tokens, or
whose method token is not case-sensitively GET, HEAD or OPTIONS, makes
from_bytes return InvalidFormat — never a partial Request — and the
handler answers such a decode failure with the 400 Bad Request response. -/
theorem c3_confirmed (input : Str)
    (h : (requestToks input).length < 3 ∨
      HttpMethod.fromStr ((requestToks input).headD []) = Except.error RequestError.invalidFormat) :
    Request.from_bytes input = Except.error RequestError.invalidFormat ∧
    ∀ fs : Fs, ∀ tree : FileTree,
      handle_client fs tree input = [Action.writeResp badRequestResponse, Action.shutdown] ∧
      badRequestResponse.status = HttpStatus.BadRequest := by
  have hfb : Request.from_bytes input = Except.error RequestError.invalidFormat := by
    unfold Request.from_bytes
    cases htoks : requestToks input with
    | nil => rfl
    | cons m rest1 =>
      cases hm : HttpMethod.fromStr m with
      | error e =>
        have he := fromStr_error_eq m e hm
        subst he
        simp [hm]
      | ok method =>
        cases rest1 with
        | nil => simp [hm]
        | cons p rest2 =>
          cases rest2 with
          | nil => simp [hm]
          | cons v rest3 =>
            exfalso
            rcases h with hl | hme
            · rw [htoks] at hl
              simp [List.length_cons] at hl
              omega
            · rw [htoks] at hme
              simp only [List.headD_cons] at hme
              rw [hm] at hme
              exact Except.noConfusion hme
  refine ⟨hfb, ?_⟩
  intro fs tree
  exact ⟨by simp [handle_client, hfb], by decide⟩

/-- Request bytes "POST / HTTP/1.1\r\n\r\n". -/
def inputPost : Str :=
  ['P', 'O', 'S', 'T', ' ', '/', ' ', 'H', 'T', 'T', 'P', '/', '1', '.', '1',
    '\r', '\n', '\r', '\n']

/-- Witness for C3 at the concrete request "POST / HTTP/1.1": the method is
rejected case-sensitively and the handler writes the 400 response. -/
theorem c3_witness :
    Request.from_bytes inputPost = Except.error RequestError.invalidFormat ∧
    handle_client fsDemo ⟨rootDemo⟩ inputPost =
      [Action.writeResp badRequestResponse, Action.shutdown] :=
  ⟨(c3_confirmed inputPost (Or.inr (by decide))).1,
   ((c3_confirmed inputPost (Or.inr (by decide))).2 fsDemo ⟨rootDemo⟩).1⟩

/-- Request bytes "GET / HTTP/1.1\r\nHost: x" — the stream ends before the
blank line that would terminate the header section. -/
def inputTrunc : Str :=
  ['G', 'E', 'T', ' ', '/', ' ', 'H', 'T', 'T', 'P', '/', '1', '.', '1',
    '\r', '\n', 'H', 'o', 's', 't', ':', ' ', 'x']

/-- Claim C4 counterexample: a stream that ends mid-message (before the
blank line) decodes to a successfully parsed Request — not to an Io error
as the claim states — because read_line and lines treat end-of-stream as
ordinary end of data. -/
theorem c4_counterexample :
    Request.from_bytes inputTrunc =
      Except.ok ⟨HttpMethod.GET, ['/'], ['H', 'T', 'T', 'P', '/', '1', '.', '1'],
        [(['H', 'o', 's', 't'], ['x'])]⟩ := by
  decide

/-- Claim C4 as amended: decoding a stream that simply ends (at any point)
never produces an Io error; it yields InvalidFormat for a bad request line
or a parsed Request with the headers read so far. Io errors would arise
only from transport read failures, which end-of-stream is not. -/
theorem c4_amended (input : Str) :
    Request.from_bytes input = Except.error RequestError.invalidFormat ∨
    ∃ r : Request, Request.from_bytes input = Except.ok r := by
  unfold Request.from_bytes
  cases htoks : requestToks input with
  | nil => exact Or.inl rfl
  | cons m rest1 =>
    cases hm : HttpMethod.fromStr m with
    | error e =>
      have he := fromStr_error_eq m e hm
      subst he
      exact Or.inl (by simp [hm])
    | ok method =>
      cases rest1 with
      | nil => exact Or.inl (by simp [hm])
      | cons p rest2 =>
        cases rest2 with
        | nil => exact Or.inl (by simp [hm])
        | cons v rest3 =>
          rcases collectHeaders_cases (headerPart input) [] with ⟨hs, hok⟩ | herr
          · exact Or.inr ⟨⟨method, p, v, hs⟩, by simp [hm, hok]⟩
          · exact Or.inl (by simp [hm, herr])

/-- Claim C5 counterexample: the encoding of the default response contains
no carriage return at all, while the claimed CRLF grammar (writeSpecCRLF,
the spec's words) requires one for every line — so Response::write does
not terminate its lines with CRLF. -/
theorem c5_counterexample :
    containsSeq ['\r'] (Response.write Response.new) = false ∧
    containsSeq ['\r'] (writeSpecCRLF Response.new) = true := by
  exact ⟨by decide, by decide⟩

/-- Claim C5 as amended: Response::write emits exactly the claimed grammar
with the line terminator LF instead of CRLF (writeln! writes '\n') —
status line, one name-value line per header, empty line, body verbatim
and nothing after it — and every builder-built Response carries the
default Server and Connection headers, an inserted header is found under
its key, and inserting one key leaves every other key unchanged. -/
theorem c5_amended :
    (∀ r : Response, Response.write r = writeSpecLF r) ∧
    lookupHeader Response.new.headers serverKey = some serverVal ∧
    lookupHeader Response.new.headers connectionKey = some closeVal ∧
    (∀ r : Response, ∀ k v : Str, lookupHeader (r.withHeader k v).headers k = some v) ∧
    (∀ r : Response, ∀ k v k2 : Str, k2 ≠ k →
      lookupHeader (r.withHeader k v).headers k2 = lookupHeader r.headers k2) := by
  refine ⟨?_, by decide, by decide, ?_, ?_⟩
  · intro r
    unfold Response.write writeSpecLF
    rw [joinAll_map_headerLine]
    cases hb : r.body <;> simp [hb]
  · intro r k v
    simpa [Response.withHeader] using lookup_insert_self r.headers k v
  · intro r k v k2 h
    simpa [Response.withHeader] using lookup_insert_other r.headers k v k2 h

/-- Witness for C5's amended theorem at concrete values: the default
response encodes per the LF grammar, and overwriting the Connection
header leaves the Server header unchanged. -/
theorem c5_witness :
    Response.write Response.new = writeSpecLF Response.new ∧
    lookupHeader ((Response.new).withHeader connectionKey serverVal).headers serverKey =
      lookupHeader Response.new.headers serverKey :=
  ⟨c5_amended.1 Response.new,
   c5_amended.2.2.2.2 Response.new connectionKey serverVal serverKey (by decide)⟩

/-- Claim C6: when the traversal guard passes and the underlying open
fails with NotFound, get_reader returns NotFound (never InvalidPath) and
the handler's response is 404; every other resolution failure — another
open error, or a guard rejection (InvalidPath) — yields the 500 response,
so the NotFound/other distinction survives end-to-end. -/
theorem c6_confirmed (fs : Fs) (tree : FileTree) (req : Request) :
    (∀ jp, resolvedPath tree req.path = some jp →
      fs jp = Except.error ErrorKind.notFound →
      get_reader fs tree req.path = Except.error ErrorKind.notFound ∧
      (responseFor fs tree req).status = HttpStatus.NotFound) ∧
    (∀ jp k, resolvedPath tree req.path = some jp →
      fs jp = Except.error k → k ≠ ErrorKind.notFound →
      (responseFor fs tree req).status = HttpStatus.InternalServerError) ∧
    (resolvedPath tree req.path = none →
      (responseFor fs tree req).status = HttpStatus.InternalServerError) := by
  refine ⟨?_, ?_, ?_⟩
  · intro jp hjp hfs
    have hg : get_reader fs tree req.path = Except.error ErrorKind.notFound := by
      rw [get_reader_eq, hjp]
      exact hfs
    have hr : responseFor fs tree req = notFoundResponse := by
      simp [responseFor, hg]
    exact ⟨hg, by rw [hr]; decide⟩
  · intro jp k hjp hfs hk
    have hg : get_reader fs tree req.path = Except.error k := by
      rw [get_reader_eq, hjp]
      exact hfs
    have hr : responseFor fs tree req = internalErrorResponse := by
      simp [responseFor, hg, hk]
    rw [hr]
    decide
  · intro hnone
    have hg : get_reader fs tree req.path = Except.error ErrorKind.invalidInput := by
      rw [get_reader_eq, hnone]
    have hr : responseFor fs tree req = internalErrorResponse := by
      simp [responseFor, hg]
    rw [hr]
    decide

/-- The request path "/missing.txt" of the C6 witness. -/
def pMissing : Str := ['/', 'm', 'i', 's', 's', 'i', 'n', 'g', '.', 't', 'x', 't']

/-- A parsed GET request for "/missing.txt". -/
def reqMissing : Request :=
  ⟨HttpMethod.GET, pMissing, ['H', 'T', 'T', 'P', '/', '1', '.', '1'], []⟩

/-- The path File::open receives for "/missing.txt" under /srv/www. -/
def jpMissing : Str :=
  ['/', 's', 'r', 'v', '/', 'w', 'w', 'w', '/', 'm', 'i', 's', 's', 'i', 'n', 'g', '.', 't', 'x', 't']

/-- Witness for C6: on a filesystem where every open reports NotFound, the
request for "/missing.txt" resolves to NotFound and a 404 response. -/
theorem c6_witness :
    get_reader fsDemo ⟨rootDemo⟩ reqMissing.path = Except.error ErrorKind.notFound ∧
    (responseFor fsDemo ⟨rootDemo⟩ reqMissing).status = HttpStatus.NotFound :=
  (c6_confirmed fsDemo ⟨rootDemo⟩ reqMissing).1 jpMissing (by decide) (by decide)

/-- Claim C7: whatever the decode result, the resolution result, or the
success or failure of the write, one handle_client run attempts exactly
one response write followed by exactly one shutdown — its action trace is
a write then a shutdown, nothing else, on every path. -/
theorem c7_confirmed (fs : Fs) (tree : FileTree) (input : Str) :
    ∃ r : Response, handle_client fs tree input = [Action.writeResp r, Action.shutdown] := by
  unfold handle_client
  cases hfb : Request.from_bytes input with
  | error e => exact ⟨badRequestResponse, rfl⟩
  | ok req => exact ⟨responseFor fs tree req, rfl⟩

/-- Claim C8 (code_bug): on a decode failure the handler writes the 400
response whose Content-Length header was computed from
DEFAULT_NOT_FOUND_BODY (main.rs line 47) while its body is
DEFAULT_BAD_REQUEST_BODY — the header value renders length 22 but the
carried body has length 24, so the Content-Length of the 400 response
does not equal the length of the body it carries. -/
theorem c8_code_bug :
    handle_client fsDemo ⟨rootDemo⟩ inputPost =
      [Action.writeResp badRequestResponse, Action.shutdown] ∧
    lookupHeader badRequestResponse.headers contentLengthKey =
      some (Nat.toDigits 10 DEFAULT_NOT_FOUND_BODY.length) ∧
    badRequestResponse.body = some DEFAULT_BAD_REQUEST_BODY ∧
    DEFAULT_BAD_REQUEST_BODY.length = 24 ∧
    DEFAULT_NOT_FOUND_BODY.length = 22 := by
  exact ⟨by decide, by decide, by decide, by decide, by decide⟩

/-- Claim C10: a request line with surplus tokens after the third is
accepted, not rejected: the second token becomes the path, the third the
version, everything beyond is ignored, and decoding succeeds (given
well-formed header lines). -/
theorem c10_confirmed (input : Str) (m p v : Str) (rest : List Str)
    (meth : HttpMethod) (hs : List (Str × Str))
    (htoks : requestToks input = m :: p :: v :: rest)
    (_hmore : rest ≠ [])
    (hm : HttpMethod.fromStr m = Except.ok meth)
    (hh : collectHeaders [] (headerPart input) = Except.ok hs) :
    Request.from_bytes input = Except.ok ⟨meth, p, v, hs⟩ := by
  unfold Request.from_bytes
  rw [htoks]
  simp [hm, hh]

/-- Request bytes "GET /a.css HTTP/1.1 xx\r\nHost: y\r\n\r\n": four
request-line tokens. -/
def inputExtra : Str :=
  ['G', 'E', 'T', ' ', '/', 'a', '.', 'c', 's', 's', ' ',
    'H', 'T', 'T', 'P', '/', '1', '.', '1', ' ', 'x', 'x', '\r', '\n',
    'H', 'o', 's', 't', ':', ' ', 'y', '\r', '\n', '\r', '\n']

/-- Witness for C10: the four-token request line decodes successfully,
with the surplus token "xx" ignored. -/
theorem c10_witness :
    Request.from_bytes inputExtra =
      Except.ok ⟨HttpMethod.GET, ['/', 'a', '.', 'c', 's', 's'],
        ['H', 'T', 'T', 'P', '/', '1', '.', '1'], [(['H', 'o', 's', 't'], ['y'])]⟩ :=
  c10_confirmed inputExtra ['G', 'E', 'T'] ['/', 'a', '.', 'c', 's', 's']
    ['H', 'T', 'T', 'P', '/', '1', '.', '1'] [['x', 'x']] HttpMethod.GET
    [(['H', 'o', 's', 't'], ['y'])] (by decide) (by decide) (by decide) (by decide)

end FileShover
